import Mathlib

/-!
# Verification of the Mirage 8SVX → ES5503 conversion pipeline

Shallow embedding of `scripts/convert-mirage-samples.py`: the IFF/8SVX
container parser (`parse_8svx`), the signed→unsigned PCM transcoder
(`signed_to_unsigned`), the budgeted sample selector (`select_samples`)
and the ROM packer (`create_es5503_rom`), together with theorems settling
the specification claims about them.

Files are modelled as `List Nat` (byte values); the Python file object is
modelled by an explicit read position.  `f.read(n)` returns up to `n`
bytes without error (`readBytes`), while `struct.unpack` on a short read
raises (`read4`/`read2` return `none`, mapped to a `structErr`).
-/

set_option maxRecDepth 6000

namespace Devilbox

/-- Model of `f.read n` at position `pos`: returns up to `n` bytes, silently fewer
near end of file, exactly as Python's file `read`. -/
def readBytes (data : List Nat) (pos n : Nat) : List Nat :=
  (data.drop pos).take n

/-- Model of `struct.unpack('>I', f.read(4))`: big-endian 32-bit read; `none` models
the `struct.error` raised when fewer than 4 bytes remain. -/
def read4 (data : List Nat) (pos : Nat) : Option Nat :=
  match readBytes data pos 4 with
  | [a, b, c, d] => some (((a * 256 + b) * 256 + c) * 256 + d)
  | _ => none

/-- Model of `struct.unpack('>H', f.read(2))`: big-endian 16-bit read. -/
def read2 (data : List Nat) (pos : Nat) : Option Nat :=
  match readBytes data pos 2 with
  | [a, b] => some (a * 256 + b)
  | _ => none

/-- Model of `bytes.decode('ascii', errors='ignore')`: non-ASCII bytes are dropped. -/
def chunkIdDecode (bs : List Nat) : List Nat :=
  bs.filter (fun b => b < 128)

/-- ASCII bytes of `'FORM'`. -/
def formTag : List Nat := [70, 79, 82, 77]

/-- ASCII bytes of `'8SVX'`. -/
def svxTag : List Nat := [56, 83, 86, 88]

/-- ASCII bytes of `'VHDR'`. -/
def vhdrTag : List Nat := [86, 72, 68, 82]

/-- ASCII bytes of `'BODY'`. -/
def bodyTag : List Nat := [66, 79, 68, 89]

/-- Failure modes of `parse_8svx`: the two `ValueError`s for bad magic,
the `ValueError` for a missing BODY chunk, and `struct.error` from a
truncated fixed-width read. -/
inductive ParseErr where
  | notIFF
  | not8SVX
  | noBody
  | structErr
deriving DecidableEq, Repr

/-- Epilogue of the parser: `None → raise ValueError / Some p → return`,
the code run after the chunk loop ends. -/
def finishParse (pcm : Option (List Nat)) (rate os : Nat) :
    Except ParseErr (List Nat × Nat × Nat) :=
  match pcm with
  | none => .error .noBody
  | some p => .ok (p, rate, os)

/-- The chunk loop of `parse_8svx`.  Each iteration reads a 4-byte chunk id
(loop breaks if fewer than 4 bytes remain) and a big-endian 4-byte size
(`struct.error` if short), handles `VHDR` (reads three u32 fields and one
u16 field) and `BODY` (stores `f.read(chunk_size)`, silently short near
EOF), then seeks to `chunk_start + chunk_size + chunk_size % 2`.  The
`fuel` argument bounds the iteration count; the wrapper passes
`data.length + 1`, which is never exhausted since each iteration that
recurses starts at a position strictly inside the data and advances the
position by at least 8. -/
def parseChunks (data : List Nat) :
    Nat → Nat → Option (List Nat) → Nat → Nat →
    Except ParseErr (List Nat × Nat × Nat)
  | 0, _, pcm, rate, os => finishParse pcm rate os
  | fuel + 1, pos, pcm, rate, os =>
    let cid := readBytes data pos 4
    if cid.length < 4 then finishParse pcm rate os
    else
      match read4 data (pos + 4) with
      | none => .error .structErr
      | some csize =>
        if chunkIdDecode cid = vhdrTag then
          match read4 data (pos + 8), read4 data (pos + 12),
                read4 data (pos + 16), read2 data (pos + 20) with
          | some os9, some _rep, some _spc, some rate9 =>
            parseChunks data fuel (pos + 8 + csize + csize % 2) pcm rate9 os9
          | _, _, _, _ => .error .structErr
        else if chunkIdDecode cid = bodyTag then
          parseChunks data fuel (pos + 8 + csize + csize % 2)
            (some (readBytes data (pos + 8) csize)) rate os
        else
          parseChunks data fuel (pos + 8 + csize + csize % 2) pcm rate os

/-- The function `parse_8svx`: check the `FORM` magic, read the (unused) form size,
check the `8SVX` magic, then run the chunk loop from position 12 with the
defaults `sample_rate = 22050`, `one_shot_len = 0`. -/
def parse_8svx (data : List Nat) : Except ParseErr (List Nat × Nat × Nat) :=
  if readBytes data 0 4 ≠ formTag then .error .notIFF
  else
    match read4 data 4 with
    | none => .error .structErr
    | some _formSize =>
      if readBytes data 8 4 ≠ svxTag then .error .not8SVX
      else parseChunks data (data.length + 1) 12 none 22050 0

/-- The per-byte body of `signed_to_unsigned`: reinterpret the byte as an
8-bit two's-complement value (`byte if byte < 128 else byte - 256`), add
128, mask with `& 0xFF` (modelled by `% 256`, which agrees with Python's
`&` on these values), and substitute 1 for the reserved value 0. -/
def transByte (byte : Nat) : Nat :=
  let signed_value : Int := if byte < 128 then (byte : Int) else (byte : Int) - 256
  let unsigned_value : Int := (signed_value + 128) % 256
  if unsigned_value = 0 then 1 else unsigned_value.toNat

/-- The function `signed_to_unsigned`: the byte-wise loop building the unsigned buffer. -/
def signed_to_unsigned (signed_pcm : List Nat) : List Nat :=
  signed_pcm.map transByte

/-- Modelled from the spec (§4.2 wording, for refinement comparison with
`transByte`): reinterpret the bit pattern as an 8-bit two's-complement
signed value in −128..127, add 128, mask to 8 bits, and substitute 1 when
the result equals 0. -/
def transByteSpec (b : Nat) : Nat :=
  let signed : Int := if b ≤ 127 then (b : Int) else (b : Int) - 256
  let shifted : Int := (signed + 128) % 256
  if shifted = 0 then 1 else shifted.toNat

/-- A candidate `.8svx` file handed to the selector: its file name and its
raw contents.  The directory-priority traversal and name sort are upstream
policy; the selector receives the resulting enumeration. -/
structure CandFile where
  name : String
  data : List Nat
deriving DecidableEq

/-- The inner loop of `select_samples` over one directory's sorted files.
Result: (accepted list, running total, halted flag); the flag models the
early `return samples` taken when the budget would be exceeded.  A parse
failure is caught, warned about and skipped; a transcoded length above
32768 is skipped without touching the budget. -/
def selGroup (d : String) :
    List CandFile → List (String × List Nat) → Nat → Nat →
    List (String × List Nat) × Nat × Bool
  | [], acc, tot, _ => (acc, tot, false)
  | c :: rest, acc, tot, b =>
    match parse_8svx c.data with
    | .error _ => selGroup d rest acc tot b
    | .ok parsed =>
      let pcm := signed_to_unsigned parsed.1
      if 32768 < pcm.length then selGroup d rest acc tot b
      else if b < tot + pcm.length then (acc, tot, true)
      else selGroup d rest (acc ++ [(d ++ "/" ++ c.name, pcm)])
        (tot + pcm.length) b

/-- The outer loop of `select_samples` over the priority directories.  A
halted inner loop returns the accepted list for the whole run (the
`return samples` aborts both loops); otherwise the next directory is
processed with the updated accumulator and total. -/
def selGroups : List (String × List CandFile) → List (String × List Nat) →
    Nat → Nat → List (String × List Nat)
  | [], acc, _, _ => acc
  | (d, files) :: rest, acc, tot, b =>
    let r := selGroup d files acc tot b
    if r.2.2 then r.1 else selGroups rest r.1 r.2.1 b

/-- The function `select_samples`: greedy budgeted selection starting from an empty
accepted list and a running total of 0.  A directory missing on disk
contributes an empty file list in the enumeration. -/
def select_samples (groups : List (String × List CandFile))
    (max_size : Nat) : List (String × List Nat) :=
  selGroups groups [] 0 max_size

/-- One record of the `sample_map` built by `create_es5503_rom`. -/
structure MapEntry where
  name : String
  offset : Nat
  size : Nat
  page : Nat
deriving DecidableEq, Repr

/-- The packing loop of `create_es5503_rom`: extend the wave RAM with the
sample's bytes, append a map entry recording the current offset, its page
(`offset // 256`) and size, then advance the offset by the size. -/
def packGo : List (String × List Nat) → Nat → List Nat → List MapEntry →
    List Nat × List MapEntry
  | [], _, ram, m => (ram, m)
  | (n, pcm) :: rest, off, ram, m =>
    packGo rest (off + pcm.length) (ram ++ pcm)
      (m ++ [⟨n, off, pcm.length, off / 256⟩])

/-- Uppercase hexadecimal digit, as used by Python's `X` format. -/
def hexDigit (n : Nat) : Char :=
  if n < 10 then Char.ofNat (48 + n) else Char.ofNat (55 + n)

/-- Hexadecimal digits of `n`, most significant first (fuelled division
loop; the fuel `n + 1` always suffices). -/
def toHexCore : Nat → Nat → List Char → List Char
  | 0, _, acc => acc
  | fuel + 1, n, acc =>
    if n = 0 then acc else toHexCore fuel (n / 16) (hexDigit (n % 16) :: acc)

/-- Python's `format(n, '04X')`: uppercase hexadecimal, zero-padded on the
left to at least four digits. -/
def hex04 (n : Nat) : String :=
  let ds := if n = 0 then ['0'] else toHexCore (n + 1) n []
  String.mk (List.replicate (4 - ds.length) '0' ++ ds)

/-- The text written to the map file for one `sample_map` entry. -/
def renderEntry (e : MapEntry) : String :=
  "Sample: " ++ e.name ++ "\n" ++
  "  Offset: 0x" ++ hex04 e.offset ++ " (" ++ Nat.repr e.offset ++ " bytes)\n" ++
  "  Page:   " ++ Nat.repr e.page ++ "\n" ++
  "  Size:   " ++ Nat.repr e.size ++ " bytes\n\n"

/-- The artifacts produced by `create_es5503_rom`: the ROM bytes, the
`sample_map` records, the text written to the `.map.txt` file, and the
lines printed to standard output. -/
structure RomOutput where
  rom : List Nat
  sample_map : List MapEntry
  mapText : String
  stdout : List String
deriving DecidableEq

/-- The function `create_es5503_rom`: reserve 2048 zero bytes (pages 0–7), append every
accepted sample in order while recording map entries from offset 2048,
write the map text (header, one block per entry, trailing total ROM size)
and print the summary lines.  `outName` and `mapName` stand for the output
path and the map path the caller derives from it with `with_suffix`. -/
def create_es5503_rom (samples : List (String × List Nat))
    (outName mapName : String) : RomOutput :=
  let r := packGo samples 2048 (List.replicate 2048 0) []
  { rom := r.1
    sample_map := r.2
    mapText :=
      "ES5503 Wave ROM Sample Map\n" ++ String.mk (List.replicate 60 '=') ++
      "\n\n" ++ String.join (r.2.map renderEntry) ++
      "\nTotal ROM size: " ++ Nat.repr r.1.length ++ " bytes\n"
    stdout :=
      ["\nCreated " ++ outName ++ ": " ++ Nat.repr r.1.length ++ " bytes",
       "Sample map: " ++ mapName,
       "Total samples: " ++ Nat.repr samples.length] }

/-! ## Derived definitions used to state the claims -/

/-- Total byte size of an accepted-sample list. -/
def sizesOf (acc : List (String × List Nat)) : Nat :=
  (acc.map (fun s => s.2.length)).sum

/-- The list of accepted sizes, in acceptance order. -/
def sampleSizes (samples : List (String × List Nat)) : List Nat :=
  samples.map (fun s => s.2.length)

/-- Closed form of the map records produced by the packing loop when it
starts at offset `off`: entry `i` is placed at `off` plus the sizes of the
preceding samples, with its page equal to that offset divided by 256. -/
def mapEntriesFrom : List (String × List Nat) → Nat → List MapEntry
  | [], _ => []
  | (n, pcm) :: rest, off =>
    ⟨n, off, pcm.length, off / 256⟩ :: mapEntriesFrom rest (off + pcm.length)

/-- Predicate `leadsWith needle hay`: `hay` starts with `needle`. -/
def leadsWith : List Char → List Char → Bool
  | [], _ => true
  | _ :: _, [] => false
  | a :: as, b :: bs => a = b && leadsWith as bs

/-- Predicate `hasSub needle hay`: `needle` occurs contiguously inside `hay`. -/
def hasSub (needle hay : List Char) : Bool :=
  hay.tails.any (leadsWith needle)

/-- Walk of the chunk sequence mirroring the control flow of the loop in
`parse_8svx`: `some true` when a BODY chunk is reached, `some false` when
the sequence ends (or fuel runs out, matching `parseChunks`) without one,
`none` when a fixed-width read aborts the walk with `struct.error`. -/
def bodyWalk (data : List Nat) : Nat → Nat → Option Bool
  | 0, _ => some false
  | fuel + 1, pos =>
    let cid := readBytes data pos 4
    if cid.length < 4 then some false
    else
      match read4 data (pos + 4) with
      | none => none
      | some csize =>
        if chunkIdDecode cid = vhdrTag then
          match read4 data (pos + 8), read4 data (pos + 12),
                read4 data (pos + 16), read2 data (pos + 20) with
          | some _, some _, some _, some _ =>
            bodyWalk data fuel (pos + 8 + csize + csize % 2)
          | _, _, _, _ => none
        else if chunkIdDecode cid = bodyTag then some true
        else bodyWalk data fuel (pos + 8 + csize + csize % 2)

/-! ## Concrete inputs used by witnesses and counterexamples -/

/-- A well-formed 8SVX file with a 10-byte BODY of zero bytes (signed
value 0, transcoding to 0x80 each). -/
def svx10 : List Nat :=
  [70,79,82,77, 0,0,0,22, 56,83,86,88, 66,79,68,89, 0,0,0,10,
   0,0,0,0,0,0,0,0,0,0]

/-- A file whose BODY chunk declares 10 payload bytes while only 3 remain
in the file. -/
def truncFile : List Nat :=
  [70,79,82,77, 0,0,0,20, 56,83,86,88, 66,79,68,89, 0,0,0,10, 1,2,3]

/-- A file with two BODY chunks: a 3-byte one (odd length, so padded) and
then a 2-byte one. -/
def twoBodyFile : List Nat :=
  [70,79,82,77, 0,0,0,25, 56,83,86,88,
   66,79,68,89, 0,0,0,3, 9,9,9, 0,
   66,79,68,89, 0,0,0,2, 7,8]

/-- A chunk stream fragment starting with an unrecognized chunk of odd
declared size 3. -/
def oddChunkData : List Nat :=
  [90,90,90,90, 0,0,0,3, 1,2,3, 66,79,68,89, 0,0,0,1, 5]

/-- A file whose first magic is not `FORM`. -/
def badMagicFile : List Nat := [1, 2, 3, 4, 0, 0, 0, 0]

/-- A file with a good `FORM` magic but a form type other than `8SVX`. -/
def badTypeFile : List Nat := [70,79,82,77, 0,0,0,4, 65,66,67,68]

/-- A file with both magics good and no chunks at all. -/
def noChunkFile : List Nat := [70,79,82,77, 0,0,0,4, 56,83,86,88]

/-! ## Transcoder lemmas -/

/-- The transcoded byte is never the reserved sentinel 0. -/
theorem transByte_ne_zero (byte : Nat) : transByte byte ≠ 0 := by
  simp only [transByte]
  set s : Int := if byte < 128 then (byte : Int) else (byte : Int) - 256 with hs
  have h0 : (0 : Int) ≤ (s + 128) % 256 := Int.emod_nonneg _ (by norm_num)
  by_cases hz : (s + 128) % 256 = 0
  · rw [if_pos hz]; exact one_ne_zero
  · rw [if_neg hz]
    intro hc
    exact hz (le_antisymm (Int.toNat_eq_zero.mp hc) h0)

/-- The source transform agrees with the spec-worded transform. -/
theorem transByte_eq_transByteSpec (b : Nat) : transByte b = transByteSpec b := by
  unfold transByte transByteSpec
  rcases Nat.lt_or_ge b 128 with h | h
  · rw [if_pos h, if_pos (by omega : b ≤ 127)]
  · rw [if_neg (by omega : ¬ b < 128), if_neg (by omega : ¬ b ≤ 127)]

/-- C2: For every input byte sequence, no byte of the transcoder's output
(`signed_to_unsigned`) equals 0x00: any byte whose reinterpreted value
would be 0 is replaced by 0x01. -/
theorem C2_no_sentinel (l : List Nat) (b : Nat)
    (hb : b ∈ signed_to_unsigned l) : b ≠ 0 := by
  simp only [signed_to_unsigned, List.mem_map] at hb
  obtain ⟨a, -, rfl⟩ := hb
  exact transByte_ne_zero a

/-- Witness for C2: the transcoding of `[0x80]` contains the byte 0x01,
and that byte is nonzero. -/
theorem C2_no_sentinel_witness : (1 : Nat) ≠ 0 :=
  C2_no_sentinel [128] 1 (by decide)

/-- C3: `signed_to_unsigned` preserves length, each output byte is the
input byte reinterpreted as 8-bit two's complement, shifted by +128,
masked to 8 bits, with 0 substituted by 1 (the spec-worded `transByteSpec`),
and the landmark values 0x80 ↦ 0x01, 0x00 ↦ 0x80, 0x7F ↦ 0xFF hold. -/
theorem C3_transcoding (l : List Nat) :
    (signed_to_unsigned l).length = l.length ∧
    (∀ i, (h : i < l.length) →
      (signed_to_unsigned l)[i]? = some (transByteSpec (l.get ⟨i, h⟩))) ∧
    signed_to_unsigned [128] = [1] ∧
    signed_to_unsigned [0] = [128] ∧
    signed_to_unsigned [127] = [255] := by
  refine ⟨by simp [signed_to_unsigned], ?_, rfl, rfl, rfl⟩
  intro i h
  simp [signed_to_unsigned, List.getElem?_map, List.getElem?_eq_getElem h,
    transByte_eq_transByteSpec]

/-- Witness for C3: the pointwise clause at input `[5]`, index 0. -/
theorem C3_transcoding_witness :
    (signed_to_unsigned [5])[0]? = some (transByteSpec (([5] : List Nat).get ⟨0, by decide⟩)) :=
  (C3_transcoding [5]).2.1 0 (by decide)

/-! ## Selector lemmas -/

/-- Step lemma: a candidate that fails to parse is skipped. -/
theorem selGroup_cons_err (d : String) (c : CandFile) (rest : List CandFile)
    (acc : List (String × List Nat)) (tot b : Nat) (e : ParseErr)
    (hp : parse_8svx c.data = .error e) :
    selGroup d (c :: rest) acc tot b = selGroup d rest acc tot b := by
  simp [selGroup, hp]

/-- Step lemma: a candidate longer than 32768 transcoded bytes is skipped
without touching the budget. -/
theorem selGroup_cons_long (d : String) (c : CandFile) (rest : List CandFile)
    (acc : List (String × List Nat)) (tot b : Nat)
    (parsed : List Nat × Nat × Nat)
    (hp : parse_8svx c.data = .ok parsed)
    (hl : 32768 < (signed_to_unsigned parsed.1).length) :
    selGroup d (c :: rest) acc tot b = selGroup d rest acc tot b := by
  simp [selGroup, hp, hl]

/-- Step lemma: a candidate whose acceptance would exceed the budget makes
the whole selection return the accepted list immediately. -/
theorem selGroup_cons_halt (d : String) (c : CandFile) (rest : List CandFile)
    (acc : List (String × List Nat)) (tot b : Nat)
    (parsed : List Nat × Nat × Nat)
    (hp : parse_8svx c.data = .ok parsed)
    (hl : (signed_to_unsigned parsed.1).length ≤ 32768)
    (hb : b < tot + (signed_to_unsigned parsed.1).length) :
    selGroup d (c :: rest) acc tot b = (acc, tot, true) := by
  simp [selGroup, hp, Nat.not_lt.mpr hl, hb]

/-- Step lemma: an affordable candidate is accepted and the loop goes on. -/
theorem selGroup_cons_accept (d : String) (c : CandFile) (rest : List CandFile)
    (acc : List (String × List Nat)) (tot b : Nat)
    (parsed : List Nat × Nat × Nat)
    (hp : parse_8svx c.data = .ok parsed)
    (hl : (signed_to_unsigned parsed.1).length ≤ 32768)
    (hb : ¬ b < tot + (signed_to_unsigned parsed.1).length) :
    selGroup d (c :: rest) acc tot b =
      selGroup d rest (acc ++ [(d ++ "/" ++ c.name, signed_to_unsigned parsed.1)])
        (tot + (signed_to_unsigned parsed.1).length) b := by
  simp [selGroup, hp, Nat.not_lt.mpr hl, hb]

/-- Invariant of the inner loop: if the running total equals the size of
the accepted list and is within budget, the same holds of the result. -/
theorem selGroup_inv (cs : List CandFile) :
    ∀ (d : String) (acc : List (String × List Nat)) (tot b : Nat),
      sizesOf acc = tot → tot ≤ b →
      sizesOf (selGroup d cs acc tot b).1 = (selGroup d cs acc tot b).2.1 ∧
      (selGroup d cs acc tot b).2.1 ≤ b := by
  induction cs with
  | nil =>
    intro d acc tot b h1 h2
    simpa [selGroup] using ⟨h1, h2⟩
  | cons c rest ih =>
    intro d acc tot b h1 h2
    cases hp : parse_8svx c.data with
    | error e =>
      rw [selGroup_cons_err d c rest acc tot b e hp]
      exact ih d acc tot b h1 h2
    | ok parsed =>
      by_cases hl : 32768 < (signed_to_unsigned parsed.1).length
      · rw [selGroup_cons_long d c rest acc tot b parsed hp hl]
        exact ih d acc tot b h1 h2
      · by_cases hb : b < tot + (signed_to_unsigned parsed.1).length
        · rw [selGroup_cons_halt d c rest acc tot b parsed hp (Nat.not_lt.mp hl) hb]
          exact ⟨h1, h2⟩
        · rw [selGroup_cons_accept d c rest acc tot b parsed hp (Nat.not_lt.mp hl) hb]
          refine ih d _ _ b ?_ (by omega)
          simp [sizesOf] at h1 ⊢
          omega

/-- Invariant of the outer loop: the final accepted list stays within the
budget. -/
theorem selGroups_inv (gs : List (String × List CandFile)) :
    ∀ (acc : List (String × List Nat)) (tot b : Nat),
      sizesOf acc = tot → tot ≤ b →
      sizesOf (selGroups gs acc tot b) ≤ b := by
  induction gs with
  | nil =>
    intro acc tot b h1 h2
    simpa [selGroups] using h1 ▸ h2
  | cons g rest ih =>
    intro acc tot b h1 h2
    obtain ⟨d, files⟩ := g
    have h := selGroup_inv files d acc tot b h1 h2
    simp only [selGroups]
    by_cases hh : (selGroup d files acc tot b).2.2
    · rw [if_pos hh]
      exact h.1 ▸ h.2
    · rw [if_neg hh]
      exact ih _ _ b h.1 h.2

/-- C4: the sum of the accepted sizes never exceeds the budget; a
candidate whose acceptance would exceed it makes `selGroup` return the
samples accepted so far immediately (independently of the remaining
candidates of the group), and a halted group makes `selGroups` return
that list (independently of the remaining groups). -/
theorem C4_budget_invariant :
    (∀ (groups : List (String × List CandFile)) (b : Nat),
      sizesOf (select_samples groups b) ≤ b) ∧
    (∀ (d : String) (c : CandFile) (rest : List CandFile)
        (acc : List (String × List Nat)) (tot b : Nat)
        (parsed : List Nat × Nat × Nat),
      parse_8svx c.data = .ok parsed →
      (signed_to_unsigned parsed.1).length ≤ 32768 →
      b < tot + (signed_to_unsigned parsed.1).length →
      selGroup d (c :: rest) acc tot b = (acc, tot, true)) ∧
    (∀ (d : String) (files : List CandFile)
        (rest : List (String × List CandFile))
        (acc : List (String × List Nat)) (tot b : Nat),
      (selGroup d files acc tot b).2.2 = true →
      selGroups ((d, files) :: rest) acc tot b =
        (selGroup d files acc tot b).1) := by
  refine ⟨?_, ?_, ?_⟩
  · intro groups b
    exact selGroups_inv groups [] 0 b rfl (Nat.zero_le b)
  · intro d c rest acc tot b parsed hp hl hb
    exact selGroup_cons_halt d c rest acc tot b parsed hp hl hb
  · intro d files rest acc tot b hh
    simp only [selGroups]
    rw [if_pos hh]

/-- Witness for C4: with budget 5 and a 10-byte candidate in front, the
inner loop halts at once with the empty accepted list, and the outer loop
returns it regardless of a later group. -/
theorem C4_budget_invariant_witness :
    selGroup "A" [⟨"f1.8svx", svx10⟩, ⟨"f2.8svx", svx10⟩] [] 0 5 = ([], 0, true) ∧
    selGroups [("A", [⟨"f1.8svx", svx10⟩]), ("B", [⟨"f2.8svx", svx10⟩])] [] 0 5 =
      (selGroup "A" [⟨"f1.8svx", svx10⟩] [] 0 5).1 := by
  constructor
  · exact C4_budget_invariant.2.1 "A" ⟨"f1.8svx", svx10⟩ [⟨"f2.8svx", svx10⟩]
      [] 0 5 (List.replicate 10 0, 22050, 0) rfl (by decide) (by decide)
  · exact C4_budget_invariant.2.2 "A" [⟨"f1.8svx", svx10⟩]
      [("B", [⟨"f2.8svx", svx10⟩])] [] 0 5 rfl

/-- C6 counterexample: with budget 2053 and two 10-byte candidates, the
selector accepts both (the running total counts sample bytes only, so
10 ≤ 2053 and 20 ≤ 2053); it does not return zero samples. -/
theorem C6_counterexample :
    select_samples [("A", [⟨"f1.8svx", svx10⟩, ⟨"f2.8svx", svx10⟩])] 2053 =
      [("A/f1.8svx", List.replicate 10 128), ("A/f2.8svx", List.replicate 10 128)] := rfl

/-- C6 as amended: the budget check compares the running total of accepted
sample bytes alone (the 2048-byte reserved header does not count), so both
10-byte candidates are accepted under budget 2053; under a budget of 5 the
first candidate is rejected (0 + 10 > 5) and selection halts at once with
zero accepted samples. -/
theorem C6_amended :
    select_samples [("A", [⟨"f1.8svx", svx10⟩, ⟨"f2.8svx", svx10⟩])] 2053 =
      [("A/f1.8svx", List.replicate 10 128), ("A/f2.8svx", List.replicate 10 128)] ∧
    select_samples [("A", [⟨"f1.8svx", svx10⟩, ⟨"f2.8svx", svx10⟩])] 5 = [] :=
  ⟨rfl, rfl⟩

/-! ## Packer lemmas -/

/-- Closed form of the packing loop: the RAM is extended with the
concatenation of the samples' bytes and the map with `mapEntriesFrom`. -/
theorem packGo_eq (samples : List (String × List Nat)) :
    ∀ (off : Nat) (ram : List Nat) (m : List MapEntry),
      packGo samples off ram m =
        (ram ++ (samples.map Prod.snd).flatten, m ++ mapEntriesFrom samples off) := by
  induction samples with
  | nil => intro off ram m; simp [packGo, mapEntriesFrom]
  | cons s rest ih =>
    intro off ram m
    obtain ⟨n, pcm⟩ := s
    simp [packGo, mapEntriesFrom, ih, List.append_assoc]

/-- Lemma: `mapEntriesFrom` has one record per sample. -/
theorem mapEntriesFrom_length (samples : List (String × List Nat)) :
    ∀ off : Nat, (mapEntriesFrom samples off).length = samples.length := by
  induction samples with
  | nil => intro off; simp [mapEntriesFrom]
  | cons s rest ih =>
    intro off
    obtain ⟨n, pcm⟩ := s
    simp [mapEntriesFrom, ih]

/-- Record `i` of `mapEntriesFrom samples off` carries sample `i`'s name
and size, the offset `off` plus the sizes of the preceding samples, and
that offset divided by 256 as its page. -/
theorem mapEntriesFrom_getElem (samples : List (String × List Nat)) :
    ∀ (off i : Nat) (h : i < samples.length),
      (mapEntriesFrom samples off)[i]? =
        some ⟨(samples.get ⟨i, h⟩).1,
              off + ((sampleSizes samples).take i).sum,
              (samples.get ⟨i, h⟩).2.length,
              (off + ((sampleSizes samples).take i).sum) / 256⟩ := by
  induction samples with
  | nil => intro off i h; simp at h
  | cons s rest ih =>
    intro off i h
    obtain ⟨n, pcm⟩ := s
    cases i with
    | zero => simp [mapEntriesFrom, sampleSizes]
    | succ j =>
      have hj : j < rest.length := by simpa using h
      simp only [mapEntriesFrom, List.getElem?_cons_succ, ih (off + pcm.length) j hj,
        sampleSizes, List.map_cons, List.take_succ_cons, List.sum_cons, List.get_cons_succ]
      simp [sampleSizes, Nat.add_assoc]

/-- C1: the packed image starts with 2048 zero bytes, equals the reserved
header followed by the accepted samples' bytes concatenated in order, has
length 2048 plus the sum of the sizes, and map record `i` is placed at
2048 plus the sizes of records 0..i−1 with page = offset / 256. -/
theorem C1_rom_layout (samples : List (String × List Nat)) (o m : String) :
    (create_es5503_rom samples o m).rom.take 2048 = List.replicate 2048 0 ∧
    (create_es5503_rom samples o m).rom =
      List.replicate 2048 0 ++ (samples.map Prod.snd).flatten ∧
    (create_es5503_rom samples o m).rom.length = 2048 + (sampleSizes samples).sum ∧
    ∀ i, (h : i < samples.length) →
      (create_es5503_rom samples o m).sample_map[i]? =
        some ⟨(samples.get ⟨i, h⟩).1,
              2048 + ((sampleSizes samples).take i).sum,
              (samples.get ⟨i, h⟩).2.length,
              (2048 + ((sampleSizes samples).take i).sum) / 256⟩ := by
  have hrom : (create_es5503_rom samples o m).rom =
      List.replicate 2048 0 ++ (samples.map Prod.snd).flatten := by
    show (packGo samples 2048 (List.replicate 2048 0) []).1 = _
    rw [packGo_eq]
  have hmap : (create_es5503_rom samples o m).sample_map =
      mapEntriesFrom samples 2048 := by
    show (packGo samples 2048 (List.replicate 2048 0) []).2 = _
    rw [packGo_eq]
    exact List.nil_append _
  refine ⟨?_, hrom, ?_, ?_⟩
  · rw [hrom]
    exact List.take_left' (by rw [List.length_replicate])
  · rw [hrom]
    rw [List.length_append, List.length_replicate, List.length_flatten]
    rw [List.map_map]
    rfl
  · intro i h
    rw [hmap]
    exact mapEntriesFrom_getElem samples 2048 i h

/-- Witness for C1: with two samples of sizes 3 and 2, record 1 sits at
offset 2051 in page 8. -/
theorem C1_rom_layout_witness :
    (create_es5503_rom [("a", [65, 66, 67]), ("b", [68, 69])] "o" "m").sample_map[1]? =
      some ⟨"b", 2048 + (([3, 2] : List Nat).take 1).sum, 2,
            (2048 + (([3, 2] : List Nat).take 1).sum) / 256⟩ :=
  (C1_rom_layout [("a", [65, 66, 67]), ("b", [68, 69])] "o" "m").2.2.2 1 (by decide)

/-- The packed image's length, in closed form. -/
theorem packGo_length (samples : List (String × List Nat)) :
    (packGo samples 2048 (List.replicate 2048 0) []).1.length =
      2048 + (sampleSizes samples).sum := by
  rw [packGo_eq]
  show (List.replicate 2048 (0 : Nat) ++ (samples.map Prod.snd).flatten).length = _
  rw [List.length_append, List.length_replicate, List.length_flatten]
  rw [List.map_map]
  rfl

/-- The map file's text, in closed form. -/
theorem mapText_closed (samples : List (String × List Nat)) (o m : String) :
    (create_es5503_rom samples o m).mapText =
      "ES5503 Wave ROM Sample Map\n" ++ String.mk (List.replicate 60 '=') ++ "\n\n" ++
      String.join ((mapEntriesFrom samples 2048).map renderEntry) ++
      "\nTotal ROM size: " ++ Nat.repr (2048 + (sampleSizes samples).sum) ++ " bytes\n" := by
  have hmap : (packGo samples 2048 (List.replicate 2048 0) []).2 =
      mapEntriesFrom samples 2048 := by
    rw [packGo_eq]
    exact List.nil_append _
  show "ES5503 Wave ROM Sample Map\n" ++ String.mk (List.replicate 60 '=') ++
      "\n\n" ++ String.join ((packGo samples 2048 (List.replicate 2048 0) []).2.map renderEntry) ++
      "\nTotal ROM size: " ++
      Nat.repr (packGo samples 2048 (List.replicate 2048 0) []).1.length ++ " bytes\n" = _
  rw [packGo_length, hmap]

/-- The standard-output lines of `create_es5503_rom`, in closed form. -/
theorem stdout_closed (samples : List (String × List Nat)) (o m : String) :
    (create_es5503_rom samples o m).stdout =
      ["\nCreated " ++ o ++ ": " ++ Nat.repr (2048 + (sampleSizes samples).sum) ++ " bytes",
       "Sample map: " ++ m,
       "Total samples: " ++ Nat.repr samples.length] := by
  show ["\nCreated " ++ o ++ ": " ++
          Nat.repr (packGo samples 2048 (List.replicate 2048 0) []).1.length ++ " bytes",
        "Sample map: " ++ m,
        "Total samples: " ++ Nat.repr samples.length] = _
  rw [packGo_length]

/-- C7 as amended: the map file holds one block per accepted sample
(name, hexadecimal offset, decimal offset, page, size, rendered by
`renderEntry` from the records of `mapEntriesFrom`) followed by a trailing
total equal to the image length; the count of accepted samples is printed
to standard output (last line), not written into the map file. -/
theorem C7_amended (samples : List (String × List Nat)) (o m : String) :
    (create_es5503_rom samples o m).mapText =
      "ES5503 Wave ROM Sample Map\n" ++ String.mk (List.replicate 60 '=') ++ "\n\n" ++
      String.join ((mapEntriesFrom samples 2048).map renderEntry) ++
      "\nTotal ROM size: " ++ Nat.repr (2048 + (sampleSizes samples).sum) ++ " bytes\n" ∧
    ((mapEntriesFrom samples 2048).map renderEntry).length = samples.length ∧
    (create_es5503_rom samples o m).stdout.getLast? =
      some ("Total samples: " ++ Nat.repr samples.length) := by
  refine ⟨mapText_closed samples o m, by rw [List.length_map, mapEntriesFrom_length], ?_⟩
  rw [stdout_closed]
  rfl

/-- C7 counterexample: for the one-sample list `[("a", [65])]` the map
file text does not contain the count of accepted samples (no occurrence
of the program's count record `"Total samples"`); the count appears only
on standard output. -/
theorem C7_counterexample :
    hasSub ("Total samples".data)
      ((create_es5503_rom [("a", [65])] "rom.bin" "rom.map.txt").mapText).data = false ∧
    (create_es5503_rom [("a", [65])] "rom.bin" "rom.map.txt").stdout =
      ["\nCreated rom.bin: 2049 bytes", "Sample map: rom.map.txt",
       "Total samples: 1"] := by
  constructor
  · rw [mapText_closed]
    decide
  · rw [stdout_closed]
    rfl

/-! ## Parser step lemmas -/

/-- Out of fuel: same result as the end-of-file break. -/
theorem parseChunks_zero (data : List Nat) (pos : Nat) (pcm : Option (List Nat))
    (rate os : Nat) : parseChunks data 0 pos pcm rate os = finishParse pcm rate os := rfl

/-- Fewer than four id bytes remain: the loop breaks. -/
theorem parseChunks_eof (data : List Nat) (fuel pos : Nat)
    (pcm : Option (List Nat)) (rate os : Nat)
    (h : (readBytes data pos 4).length < 4) :
    parseChunks data fuel pos pcm rate os = finishParse pcm rate os := by
  cases fuel with
  | zero => rfl
  | succ f =>
    simp only [parseChunks]
    rw [if_pos h]

/-- A BODY chunk was stored and the stream has ended: the parse succeeds. -/
theorem parseChunks_done (data : List Nat) (fuel pos : Nat) (p : List Nat)
    (rate os : Nat) (h : (readBytes data pos 4).length < 4) :
    parseChunks data fuel pos (some p) rate os = .ok (p, rate, os) := by
  rw [parseChunks_eof data fuel pos (some p) rate os h]
  rfl

/-- The chunk-size read is short: `struct.error`. -/
theorem parseChunks_step_struct (data : List Nat) (fuel pos : Nat)
    (pcm : Option (List Nat)) (rate os : Nat)
    (h4 : ¬ (readBytes data pos 4).length < 4)
    (hs : read4 data (pos + 4) = none) :
    parseChunks data (fuel + 1) pos pcm rate os = .error .structErr := by
  simp only [parseChunks]
  rw [if_neg h4]
  simp only [hs]

/-- A full VHDR chunk updates the rate and one-shot length, then the loop
seeks to the start plus the declared size rounded up to even. -/
theorem parseChunks_step_vhdr (data : List Nat) (fuel pos : Nat)
    (pcm : Option (List Nat)) (rate os csize os9 rep spc rate9 : Nat)
    (h4 : ¬ (readBytes data pos 4).length < 4)
    (hv : chunkIdDecode (readBytes data pos 4) = vhdrTag)
    (hs : read4 data (pos + 4) = some csize)
    (h1 : read4 data (pos + 8) = some os9)
    (h2 : read4 data (pos + 12) = some rep)
    (h3 : read4 data (pos + 16) = some spc)
    (h5 : read2 data (pos + 20) = some rate9) :
    parseChunks data (fuel + 1) pos pcm rate os =
      parseChunks data fuel (pos + 8 + csize + csize % 2) pcm rate9 os9 := by
  simp only [parseChunks]
  rw [if_neg h4]
  simp only [hs]
  rw [if_pos hv]
  simp only [h1, h2, h3, h5]

/-- A truncated VHDR chunk raises `struct.error` at one of its four
fixed-width field reads. -/
theorem parseChunks_step_vhdr_trunc (data : List Nat) (fuel pos : Nat)
    (pcm : Option (List Nat)) (rate os csize : Nat)
    (h4 : ¬ (readBytes data pos 4).length < 4)
    (hv : chunkIdDecode (readBytes data pos 4) = vhdrTag)
    (hs : read4 data (pos + 4) = some csize)
    (hmiss : read4 data (pos + 8) = none ∨ read4 data (pos + 12) = none ∨
      read4 data (pos + 16) = none ∨ read2 data (pos + 20) = none) :
    parseChunks data (fuel + 1) pos pcm rate os = .error .structErr := by
  simp only [parseChunks]
  rw [if_neg h4]
  simp only [hs]
  rw [if_pos hv]
  rcases hmiss with h | h | h | h <;> rw [h] <;>
    cases read4 data (pos + 8) <;> cases read4 data (pos + 12) <;>
    cases read4 data (pos + 16) <;> cases read2 data (pos + 20) <;> rfl

/-- A BODY chunk replaces the stored PCM with `f.read(chunk_size)` and the
loop seeks to the start plus the declared size rounded up to even. -/
theorem parseChunks_step_body (data : List Nat) (fuel pos : Nat)
    (pcm : Option (List Nat)) (rate os csize : Nat)
    (h4 : ¬ (readBytes data pos 4).length < 4)
    (hb : chunkIdDecode (readBytes data pos 4) = bodyTag)
    (hs : read4 data (pos + 4) = some csize) :
    parseChunks data (fuel + 1) pos pcm rate os =
      parseChunks data fuel (pos + 8 + csize + csize % 2)
        (some (readBytes data (pos + 8) csize)) rate os := by
  have hnv : ¬ chunkIdDecode (readBytes data pos 4) = vhdrTag := by
    rw [hb]; decide
  simp only [parseChunks]
  rw [if_neg h4]
  simp only [hs]
  rw [if_neg hnv, if_pos hb]

/-- Any other chunk is skipped whole: the loop seeks to the start plus the
declared size rounded up to even, keeping its state. -/
theorem parseChunks_step_skip (data : List Nat) (fuel pos : Nat)
    (pcm : Option (List Nat)) (rate os csize : Nat)
    (h4 : ¬ (readBytes data pos 4).length < 4)
    (hnv : ¬ chunkIdDecode (readBytes data pos 4) = vhdrTag)
    (hnb : ¬ chunkIdDecode (readBytes data pos 4) = bodyTag)
    (hs : read4 data (pos + 4) = some csize) :
    parseChunks data (fuel + 1) pos pcm rate os =
      parseChunks data fuel (pos + 8 + csize + csize % 2) pcm rate os := by
  simp only [parseChunks]
  rw [if_neg h4]
  simp only [hs]
  rw [if_neg hnv, if_neg hnb]

/-! ## Walk lemmas for the missing-BODY analysis -/

/-- Out of fuel: the walk reports no BODY seen. -/
theorem bodyWalk_zero (data : List Nat) (pos : Nat) :
    bodyWalk data 0 pos = some false := rfl

/-- Fewer than four id bytes remain: the walk ends without a BODY. -/
theorem bodyWalk_eof (data : List Nat) (fuel pos : Nat)
    (h : (readBytes data pos 4).length < 4) :
    bodyWalk data (fuel + 1) pos = some false := by
  simp only [bodyWalk]
  rw [if_pos h]

/-- Short chunk-size read: the walk aborts. -/
theorem bodyWalk_struct (data : List Nat) (fuel pos : Nat)
    (h4 : ¬ (readBytes data pos 4).length < 4)
    (hs : read4 data (pos + 4) = none) :
    bodyWalk data (fuel + 1) pos = none := by
  simp only [bodyWalk]
  rw [if_neg h4]
  simp only [hs]

/-- Full VHDR chunk: the walk advances like the parser. -/
theorem bodyWalk_vhdr (data : List Nat) (fuel pos csize os9 rep spc rate9 : Nat)
    (h4 : ¬ (readBytes data pos 4).length < 4)
    (hv : chunkIdDecode (readBytes data pos 4) = vhdrTag)
    (hs : read4 data (pos + 4) = some csize)
    (h1 : read4 data (pos + 8) = some os9)
    (h2 : read4 data (pos + 12) = some rep)
    (h3 : read4 data (pos + 16) = some spc)
    (h5 : read2 data (pos + 20) = some rate9) :
    bodyWalk data (fuel + 1) pos = bodyWalk data fuel (pos + 8 + csize + csize % 2) := by
  simp only [bodyWalk]
  rw [if_neg h4]
  simp only [hs]
  rw [if_pos hv]
  simp only [h1, h2, h3, h5]

/-- Truncated VHDR chunk: the walk aborts. -/
theorem bodyWalk_vhdr_trunc (data : List Nat) (fuel pos csize : Nat)
    (h4 : ¬ (readBytes data pos 4).length < 4)
    (hv : chunkIdDecode (readBytes data pos 4) = vhdrTag)
    (hs : read4 data (pos + 4) = some csize)
    (hmiss : read4 data (pos + 8) = none ∨ read4 data (pos + 12) = none ∨
      read4 data (pos + 16) = none ∨ read2 data (pos + 20) = none) :
    bodyWalk data (fuel + 1) pos = none := by
  simp only [bodyWalk]
  rw [if_neg h4]
  simp only [hs]
  rw [if_pos hv]
  rcases hmiss with h | h | h | h <;> rw [h] <;>
    cases read4 data (pos + 8) <;> cases read4 data (pos + 12) <;>
    cases read4 data (pos + 16) <;> cases read2 data (pos + 20) <;> rfl

/-- BODY chunk reached: the walk reports it. -/
theorem bodyWalk_body (data : List Nat) (fuel pos csize : Nat)
    (h4 : ¬ (readBytes data pos 4).length < 4)
    (hb : chunkIdDecode (readBytes data pos 4) = bodyTag)
    (hs : read4 data (pos + 4) = some csize) :
    bodyWalk data (fuel + 1) pos = some true := by
  have hnv : ¬ chunkIdDecode (readBytes data pos 4) = vhdrTag := by
    rw [hb]; decide
  simp only [bodyWalk]
  rw [if_neg h4]
  simp only [hs]
  rw [if_neg hnv, if_pos hb]

/-- Unrecognized chunk: the walk skips it like the parser. -/
theorem bodyWalk_skip (data : List Nat) (fuel pos csize : Nat)
    (h4 : ¬ (readBytes data pos 4).length < 4)
    (hnv : ¬ chunkIdDecode (readBytes data pos 4) = vhdrTag)
    (hnb : ¬ chunkIdDecode (readBytes data pos 4) = bodyTag)
    (hs : read4 data (pos + 4) = some csize) :
    bodyWalk data (fuel + 1) pos = bodyWalk data fuel (pos + 8 + csize + csize % 2) := by
  simp only [bodyWalk]
  rw [if_neg h4]
  simp only [hs]
  rw [if_neg hnv, if_neg hnb]

/-- If the chunk walk ends without encountering a BODY chunk, the parse
loop (whose accumulator is still `none`) fails with the missing-data
error. -/
theorem parseChunks_noBody (data : List Nat) : ∀ (fuel pos rate os : Nat),
    bodyWalk data fuel pos = some false →
    parseChunks data fuel pos none rate os = .error .noBody := by
  intro fuel
  induction fuel with
  | zero => intro pos rate os _; rfl
  | succ f ih =>
    intro pos rate os h
    by_cases h4 : (readBytes data pos 4).length < 4
    · rw [parseChunks_eof data (f + 1) pos none rate os h4]
      rfl
    · cases hs : read4 data (pos + 4) with
      | none =>
        rw [bodyWalk_struct data f pos h4 hs] at h
        simp at h
      | some csize =>
        by_cases hv : chunkIdDecode (readBytes data pos 4) = vhdrTag
        · cases h1 : read4 data (pos + 8) with
          | none =>
            rw [bodyWalk_vhdr_trunc data f pos csize h4 hv hs (Or.inl h1)] at h
            simp at h
          | some os9 =>
            cases h2 : read4 data (pos + 12) with
            | none =>
              rw [bodyWalk_vhdr_trunc data f pos csize h4 hv hs (Or.inr (Or.inl h2))] at h
              simp at h
            | some rep =>
              cases h3 : read4 data (pos + 16) with
              | none =>
                rw [bodyWalk_vhdr_trunc data f pos csize h4 hv hs
                  (Or.inr (Or.inr (Or.inl h3)))] at h
                simp at h
              | some spc =>
                cases h5 : read2 data (pos + 20) with
                | none =>
                  rw [bodyWalk_vhdr_trunc data f pos csize h4 hv hs
                    (Or.inr (Or.inr (Or.inr h5)))] at h
                  simp at h
                | some rate9 =>
                  rw [bodyWalk_vhdr data f pos csize os9 rep spc rate9
                    h4 hv hs h1 h2 h3 h5] at h
                  rw [parseChunks_step_vhdr data f pos none rate os csize os9 rep spc rate9
                    h4 hv hs h1 h2 h3 h5]
                  exact ih _ _ _ h
        · by_cases hb : chunkIdDecode (readBytes data pos 4) = bodyTag
          · rw [bodyWalk_body data f pos csize h4 hb hs] at h
            simp at h
          · rw [bodyWalk_skip data f pos csize h4 hv hb hs] at h
            rw [parseChunks_step_skip data f pos none rate os csize h4 hv hb hs]
            exact ih _ _ _ h

/-! ## Parser claims -/

/-- C8: for every chunk the loop processes (voice header, body or
unrecognized), the next chunk header is read at the chunk's payload start
(`pos + 8`) plus its declared size, rounded up to the next even byte
(`csize % 2` extra padding bytes: one when odd, none when even). -/
theorem C8_chunk_alignment (data : List Nat) (fuel pos : Nat)
    (pcm : Option (List Nat)) (rate os csize : Nat)
    (h4 : (readBytes data pos 4).length = 4)
    (hs : read4 data (pos + 4) = some csize)
    (hv : chunkIdDecode (readBytes data pos 4) = vhdrTag →
      (read4 data (pos + 8)).isSome ∧ (read4 data (pos + 12)).isSome ∧
      (read4 data (pos + 16)).isSome ∧ (read2 data (pos + 20)).isSome) :
    ∃ pcm2 rate2 os2, parseChunks data (fuel + 1) pos pcm rate os =
      parseChunks data fuel (pos + 8 + csize + csize % 2) pcm2 rate2 os2 := by
  have h4n : ¬ (readBytes data pos 4).length < 4 := by omega
  by_cases hid : chunkIdDecode (readBytes data pos 4) = vhdrTag
  · obtain ⟨a1, a2, a3, a4⟩ := hv hid
    obtain ⟨os9, h1⟩ := Option.isSome_iff_exists.mp a1
    obtain ⟨rep, h2⟩ := Option.isSome_iff_exists.mp a2
    obtain ⟨spc, h3⟩ := Option.isSome_iff_exists.mp a3
    obtain ⟨rate9, h5⟩ := Option.isSome_iff_exists.mp a4
    exact ⟨pcm, rate9, os9,
      parseChunks_step_vhdr data fuel pos pcm rate os csize os9 rep spc rate9
        h4n hid hs h1 h2 h3 h5⟩
  · by_cases hb : chunkIdDecode (readBytes data pos 4) = bodyTag
    · exact ⟨some (readBytes data (pos + 8) csize), rate, os,
        parseChunks_step_body data fuel pos pcm rate os csize h4n hb hs⟩
    · exact ⟨pcm, rate, os,
        parseChunks_step_skip data fuel pos pcm rate os csize h4n hid hb hs⟩

/-- Witness for C8: a chunk of odd declared size 3 makes the loop read the
next header at 0 + 8 + 3 + 1 = 12, one padding byte past its payload. -/
theorem C8_chunk_alignment_witness :
    ∃ pcm2 rate2 os2, parseChunks oddChunkData (1 + 1) 0 none 22050 0 =
      parseChunks oddChunkData 1 (0 + 8 + 3 + 3 % 2) pcm2 rate2 os2 :=
  C8_chunk_alignment oddChunkData 1 0 none 22050 0 3 (by decide) (by decide) (by decide)

/-- C9: the parser fails with `notIFF` when the first magic is not `FORM`,
with `not8SVX` when the form type is not `8SVX`, and with the
missing-data error `noBody` when the chunk walk ends without any BODY
chunk; in each case no parsed voice is produced. -/
theorem C9_failure_modes :
    (∀ data : List Nat, readBytes data 0 4 ≠ formTag →
      parse_8svx data = .error .notIFF) ∧
    (∀ (data : List Nat) (fs : Nat), readBytes data 0 4 = formTag →
      read4 data 4 = some fs → readBytes data 8 4 ≠ svxTag →
      parse_8svx data = .error .not8SVX) ∧
    (∀ (data : List Nat) (fs : Nat), readBytes data 0 4 = formTag →
      read4 data 4 = some fs → readBytes data 8 4 = svxTag →
      bodyWalk data (data.length + 1) 12 = some false →
      parse_8svx data = .error .noBody) := by
  refine ⟨?_, ?_, ?_⟩
  · intro data h
    rw [parse_8svx, if_pos h]
  · intro data fs hf hfs h8
    rw [parse_8svx, if_neg (by simp [hf])]
    simp only [hfs]
    rw [if_pos h8]
  · intro data fs hf hfs h8 hw
    rw [parse_8svx, if_neg (by simp [hf])]
    simp only [hfs]
    rw [if_neg (by simp [h8])]
    exact parseChunks_noBody data (data.length + 1) 12 22050 0 hw

/-- Witness for C9: a non-`FORM` file, a `FORM` file of another type, and
a chunkless `FORM`/`8SVX` file hit the three failure modes. -/
theorem C9_failure_modes_witness :
    parse_8svx badMagicFile = .error .notIFF ∧
    parse_8svx badTypeFile = .error .not8SVX ∧
    parse_8svx noChunkFile = .error .noBody := by
  refine ⟨?_, ?_, ?_⟩
  · exact C9_failure_modes.1 badMagicFile (by decide)
  · exact C9_failure_modes.2.1 badTypeFile 4 (by decide) (by decide) (by decide)
  · exact C9_failure_modes.2.2 noChunkFile 4 (by decide) (by decide) (by decide) (by decide)

/-- C10: the BODY branch overwrites whatever PCM was stored before (the
loop's result does not depend on the previously accumulated body), and on
a concrete file with two BODY chunks the parser returns the second body's
bytes with no error. -/
theorem C10_last_body_wins :
    (∀ (data : List Nat) (fuel pos : Nat) (pcm1 pcm2 : Option (List Nat))
        (rate os : Nat),
      (readBytes data pos 4).length = 4 →
      chunkIdDecode (readBytes data pos 4) = bodyTag →
      parseChunks data (fuel + 1) pos pcm1 rate os =
        parseChunks data (fuel + 1) pos pcm2 rate os) ∧
    parse_8svx twoBodyFile = .ok ([7, 8], 22050, 0) := by
  constructor
  · intro data fuel pos pcm1 pcm2 rate os h4 hb
    have h4n : ¬ (readBytes data pos 4).length < 4 := by omega
    cases hs : read4 data (pos + 4) with
    | none =>
      rw [parseChunks_step_struct data fuel pos pcm1 rate os h4n hs,
          parseChunks_step_struct data fuel pos pcm2 rate os h4n hs]
    | some csize =>
      rw [parseChunks_step_body data fuel pos pcm1 rate os csize h4n hb hs,
          parseChunks_step_body data fuel pos pcm2 rate os csize h4n hb hs]
  · rfl

/-- Witness for C10: at the second BODY chunk of `twoBodyFile` the loop
result is the same whether the first body's bytes or nothing had been
accumulated. -/
theorem C10_last_body_wins_witness :
    parseChunks twoBodyFile (2 + 1) 24 none 22050 0 =
      parseChunks twoBodyFile (2 + 1) 24 (some [9, 9, 9]) 22050 0 :=
  C10_last_body_wins.1 twoBodyFile 2 24 none (some [9, 9, 9]) 22050 0
    (by decide) (by decide)

/-- C5 counterexample: `truncFile` declares a 10-byte BODY while only 3
bytes remain (file length 23, payload starts at 20), yet the parser
succeeds and returns the 3 available bytes — it does not fail, and the
returned length differs from the declared chunk size. -/
theorem C5_counterexample :
    parse_8svx truncFile = .ok ([1, 2, 3], 22050, 0) ∧
    read4 truncFile 16 = some 10 ∧
    truncFile.length = 23 := ⟨rfl, rfl, rfl⟩

/-- C5 as amended: when the BODY chunk is the last chunk and declares
`csize` bytes, the parser succeeds, silently returning the available
bytes: exactly `min csize (remaining)` of them, with no truncation
error. -/
theorem C5_amended (data : List Nat) (fuel pos : Nat)
    (pcm : Option (List Nat)) (rate os csize : Nat)
    (h4 : (readBytes data pos 4).length = 4)
    (hb : chunkIdDecode (readBytes data pos 4) = bodyTag)
    (hs : read4 data (pos + 4) = some csize)
    (hend : (readBytes data (pos + 8 + csize + csize % 2) 4).length < 4) :
    parseChunks data (fuel + 1) pos pcm rate os =
      .ok ((data.drop (pos + 8)).take csize, rate, os) ∧
    ((data.drop (pos + 8)).take csize).length =
      min csize (data.length - (pos + 8)) := by
  have h4n : ¬ (readBytes data pos 4).length < 4 := by omega
  constructor
  · rw [parseChunks_step_body data fuel pos pcm rate os csize h4n hb hs]
    exact parseChunks_done data fuel (pos + 8 + csize + csize % 2)
      (readBytes data (pos + 8) csize) rate os hend
  · rw [List.length_take, List.length_drop]

/-- Witness for C5 (amended): on `truncFile`, the BODY chunk at position
12 declares 10 bytes, 3 remain, and the loop returns those 3 bytes,
`min 10 (23 − 20)` of them. -/
theorem C5_amended_witness :
    parseChunks truncFile (0 + 1) 12 none 22050 0 =
      .ok ((truncFile.drop (12 + 8)).take 10, 22050, 0) ∧
    ((truncFile.drop (12 + 8)).take 10).length =
      min 10 (truncFile.length - (12 + 8)) :=
  C5_amended truncFile 0 12 none 22050 0 10
    (by decide) (by decide) (by decide) (by decide)

end Devilbox
